import Mathlib

/-!
Shallow embedding of the formulation-evaluation engine of the
excipient-ai app (source: `excipient_ai_sim_v1.py`), together with
theorems settling the specification claims about it.

Python floats are modelled as exact rationals (`ℚ`) for the engine and
as real numbers (`ℝ`) for the Weibull dissolution curve, whose
exponential has no rational embedding.
-/

namespace ExcipientAI

/-- Chemical-property tags an excipient record may carry
(the keys that the source ever reads from an excipient's `flags` dict;
a key absent from the dict reads as `false`). -/
structure EFlags where
  reducingSugar : Bool
  hygroscopic : Bool
  alkaline : Bool
  basicExcipient : Bool
  hydrophobic : Bool
  adsorbent : Bool
  surfactant : Bool
deriving DecidableEq, Repr

/-- One record of the static excipient catalog (`Excipient` dataclass). -/
structure Excipient where
  name : String
  function : String
  range_min : ℚ
  range_max : ℚ
  flags : EFlags
  notes : String
deriving DecidableEq, Repr

/-- The static catalog `EXCIPIENTS_DB`, transcribed entry by entry. -/
def EXCIPIENTS_DB : List Excipient := [
  ⟨"Lactose monohydrate", "Diluent", 10, 80,
    ⟨true, false, false, false, false, false, false⟩, "May cause Maillard with amines."⟩,
  ⟨"Microcrystalline cellulose (MCC)", "Diluent", 10, 60,
    ⟨false, false, false, false, false, false, false⟩, "Compressibility; wicking."⟩,
  ⟨"Dicalcium phosphate anhydrous (DCPA)", "Diluent", 10, 60,
    ⟨false, false, false, false, false, false, false⟩, "Insoluble; brittle fracture."⟩,
  ⟨"Povidone (PVP K30)", "Binder", 2, 6,
    ⟨false, true, false, false, false, false, false⟩, "Solution/dry binder; hygroscopic."⟩,
  ⟨"Hydroxypropyl methylcellulose (HPMC)", "Binder", 1, 5,
    ⟨false, true, false, false, false, false, false⟩, "Viscosity-grade dependent; moderately hygroscopic."⟩,
  ⟨"Croscarmellose sodium (CCS)", "Disintegrant", 2, 5,
    ⟨false, false, false, false, false, false, false⟩, "Crosslinked cellulose."⟩,
  ⟨"Sodium starch glycolate (SSG)", "Disintegrant", 2, 8,
    ⟨false, false, true, false, false, false, false⟩, "Swelling; sodium salt can raise local pH."⟩,
  ⟨"Crospovidone (XL-10)", "Disintegrant", 2, 5,
    ⟨false, false, false, false, false, false, false⟩, "Capillary action."⟩,
  ⟨"Magnesium stearate", "Lubricant", 1 / 5, 1,
    ⟨false, false, true, true, true, false, false⟩, "Hydrophobic; basic; slows dissolution if high."⟩,
  ⟨"Colloidal silicon dioxide", "Glidant", 1 / 10, 1,
    ⟨false, false, false, false, false, true, false⟩, "Flow aid; moisture adsorbent."⟩,
  ⟨"Opadry (HPMC-based)", "Film coat", 2, 5,
    ⟨false, true, false, false, false, false, false⟩, "Weight gain in % for coat."⟩,
  ⟨"Polysorbate 80", "Wetting agent", 1 / 10, 1,
    ⟨false, false, false, false, false, false, true⟩, "Improves wetting."⟩]

/-- The name-indexed view `EX_BY_NAME` (names are unique in the catalog,
so first-match lookup agrees with the Python dict). -/
def exByName (n : String) : Option Excipient :=
  EXCIPIENTS_DB.find? (fun e => e.name == n)

/-- One line of a formulation (`Component` dataclass). -/
structure Component where
  name : String
  function : String
  pct : ℚ
deriving DecidableEq, Repr

/-- The flat serialized record emitted by `Component.to_dict`
(one row of keys name / function / pct). -/
structure SerializedRow where
  name : String
  function : String
  pct : ℚ
deriving DecidableEq, Repr

/-- `Component.to_dict`. -/
def Component.to_dict (c : Component) : SerializedRow :=
  ⟨c.name, c.function, c.pct⟩

/-- Reading one serialized row back into a component, as the caller does
with `Component(r[name], r[function], float(r[pct]))`. -/
def componentOfRow (r : SerializedRow) : Component :=
  ⟨r.name, r.function, r.pct⟩

/-- The API chemical-property flags (`api_flags` / `Formulation.flags`
dict): the fixed key set, each defaulting to false when absent. -/
structure ApiFlags where
  amine : Bool
  acidic : Bool
  basic : Bool
  ester : Bool
  aldehyde : Bool
  phenol : Bool
  thiol : Bool
  moistureSensitive : Bool
  poorSolubility : Bool
  chelation : Bool
deriving DecidableEq, Repr

/-- All flags false. -/
def noFlags : ApiFlags :=
  ⟨false, false, false, false, false, false, false, false, false, false⟩

/-- Executable maximum on rationals (agrees with `max`, see `maxQ_eq`). -/
def maxQ (a b : ℚ) : ℚ := if a ≤ b then b else a

/-- Executable minimum on rationals (agrees with `min`, see `minQ_eq`). -/
def minQ (a b : ℚ) : ℚ := if a ≤ b then a else b

/-- Executable absolute value on rationals (agrees with `|·|`, see `absQ_eq`). -/
def absQ (a : ℚ) : ℚ := if a < 0 then -a else a

/-- A `Formulation` (dataclass fields, flags modelled as `ApiFlags`). -/
structure Formulation where
  api_name : String
  dosage_form : String
  api_load_mg : ℚ
  components : List Component
  notes : String
  flags : ApiFlags
deriving DecidableEq, Repr

/-- `Formulation.total_pct`. -/
def total_pct (f : Formulation) : ℚ :=
  (f.components.map (fun c => c.pct)).sum

/-- A validation message. Each constructor corresponds to one of the
distinct message formats `Formulation.validate` can emit, carrying the
data interpolated into that format; the message level is recovered by
`VMsg.level`. -/
inductive VMsg where
  | balOk (tot : ℚ)
  | balErr (tot : ℚ)
  | balWarn (tot : ℚ)
  | noDisintegrant
  | noLubricant
  | noGlidant
  | belowRange (name : String) (pct : ℚ)
  | aboveRange (name : String) (pct : ℚ)
  | maillardWarn (name : String)
  | mgStearateHigh
deriving DecidableEq, Repr

/-- The `level` field of each message as the source formats it. -/
def VMsg.level : VMsg → String
  | .balOk _ => "ok"
  | .balErr _ => "err"
  | _ => "warn"

/-- The opening mass-balance message of `validate` (its first
if/elif/else chain). -/
def massBalanceMsg (tot : ℚ) : VMsg :=
  if absQ (tot - 100) < 1 / 1000000 then .balOk tot
  else if tot > 100 then .balErr tot
  else .balWarn tot

/-- The design-completeness block of `validate` (ir_tablet only):
missing Disintegrant / Lubricant / Glidant warnings, in source order. -/
def designMsgs (f : Formulation) : List VMsg :=
  let funcs := (f.components.filter (fun c => 0 < c.pct)).map (fun c => c.function)
  if f.dosage_form = "ir_tablet" then
    (if "Disintegrant" ∈ funcs then [] else [.noDisintegrant]) ++
    (if "Lubricant" ∈ funcs then [] else [.noLubricant]) ++
    (if "Glidant" ∈ funcs then [] else [.noGlidant])
  else []

/-- The per-component block of `validate`: a component unresolved in the
catalog is skipped; range checks run only when `pct > 0`; then the
reducing-sugar/amine warning and the Magnesium-stearate dose warning. -/
def componentMsgs (amine : Bool) (c : Component) : List VMsg :=
  match exByName c.name with
  | none => []
  | some e =>
    (if 0 < c.pct then
      (if c.pct < e.range_min then [.belowRange c.name c.pct] else []) ++
      (if e.range_max < c.pct then [.aboveRange c.name c.pct] else [])
    else []) ++
    (if e.flags.reducingSugar && amine then [.maillardWarn c.name] else []) ++
    (if e.name == "Magnesium stearate" && decide (1 < c.pct) then [.mgStearateHigh] else [])

/-- `Formulation.validate`: mass balance, then design completeness, then
the per-component loop, in source order. -/
def validate (f : Formulation) : List VMsg :=
  massBalanceMsg (total_pct f) :: (designMsgs f ++ f.components.flatMap (componentMsgs f.flags.amine))

/-- One row of the compatibility matrix (dict keys excipient / function /
pct / risk / reasons). -/
structure RiskRow where
  excipient : String
  function : String
  pct : ℚ
  risk : ℕ
  reasons : List String
deriving DecidableEq, Repr

/-- Reason string of the Maillard rule. -/
def maillardMsg : String := "Maillard risk: amine API + reducing sugar (browning)."

/-- Reason string of the moisture-uptake rule. -/
def moistureMsg : String := "Moisture uptake: hygroscopic excipient with moisture-sensitive API."

/-- Reason string of the ester-hydrolysis rule. -/
def esterMsg : String := "Ester hydrolysis risk: alkaline/hygroscopic environment."

/-- Reason string of the acid-base rule. -/
def acidBaseMsg : String := "Acid-base interaction: acidic API with basic lubricant (salt formation)."

/-- Reason string of the SSG local-pH rule. -/
def ssgMsg : String := "Local pH shifts (Na+ SSG) may affect basic APIs."

/-- Reason string of the Magnesium-stearate wetting rule. -/
def mgstMsg : String := "Hydrophobic film from high Mg stearate can slow wetting/dissolution."

/-- Default reason when no rule fires. -/
def noRiskMsg : String := "No specific risk detected with current rules."

/-- Firing condition of the Maillard rule. -/
def maillardFires (af : ApiFlags) (e : Excipient) : Bool :=
  af.amine && e.flags.reducingSugar

/-- Firing condition of the moisture-uptake rule. -/
def moistureFires (af : ApiFlags) (e : Excipient) : Bool :=
  af.moistureSensitive && e.flags.hygroscopic

/-- Firing condition of the ester-hydrolysis rule. -/
def esterFires (af : ApiFlags) (e : Excipient) : Bool :=
  af.ester && (e.flags.alkaline || e.flags.basicExcipient || e.flags.hygroscopic)

/-- Firing condition of the acid-base rule. -/
def acidBaseFires (af : ApiFlags) (e : Excipient) : Bool :=
  af.acidic && e.flags.basicExcipient

/-- Firing condition of the SSG local-pH rule (matches by excipient name). -/
def ssgFires (af : ApiFlags) (e : Excipient) : Bool :=
  af.basic && (e.name == "Sodium starch glycolate (SSG)")

/-- Firing condition of the Magnesium-stearate wetting rule (matches by
name and is gated on the component's weight percent). -/
def mgstFires (af : ApiFlags) (e : Excipient) (pct : ℚ) : Bool :=
  af.poorSolubility && (e.name == "Magnesium stearate") && decide (1 ≤ pct)

/-- The per-component body of `compatibility_matrix`: the literal
sequence of rule checks, each taking the running score to its max with
the rule's level and appending the rule's reason, then the default
reason when the score stayed 0. -/
def rowFor (af : ApiFlags) (c : Component) (e : Excipient) : RiskRow :=
  let s1 : ℕ := if maillardFires af e then max 0 3 else 0
  let r1 : List String := if maillardFires af e then [maillardMsg] else []
  let s2 := if moistureFires af e then max s1 2 else s1
  let r2 := if moistureFires af e then r1 ++ [moistureMsg] else r1
  let s3 := if esterFires af e then max s2 2 else s2
  let r3 := if esterFires af e then r2 ++ [esterMsg] else r2
  let s4 := if acidBaseFires af e then max s3 2 else s3
  let r4 := if acidBaseFires af e then r3 ++ [acidBaseMsg] else r3
  let s5 := if ssgFires af e then max s4 1 else s4
  let r5 := if ssgFires af e then r4 ++ [ssgMsg] else r4
  let s6 := if mgstFires af e c.pct then max s5 2 else s5
  let r6 := if mgstFires af e c.pct then r5 ++ [mgstMsg] else r5
  let r7 := if s6 = 0 then r6 ++ [noRiskMsg] else r6
  ⟨c.name, c.function, c.pct, s6, r7⟩

/-- `compatibility_matrix`: one row per component that resolves in the
catalog; an unresolved component is skipped (`continue`). -/
def compatibility_matrix (af : ApiFlags) (cs : List Component) : List RiskRow :=
  cs.flatMap (fun c =>
    match exByName c.name with
    | none => []
    | some e => [rowFor af c e])

/-- Spec-side description of the rule table: the (risk level, reason)
pairs of the rules that fire for the given flags, excipient and weight
percent, in declaration order. Used to state that the engine aggregates
risk by maximum, not by sum. -/
def firingRules (af : ApiFlags) (e : Excipient) (pct : ℚ) : List (ℕ × String) :=
  (if maillardFires af e then [(3, maillardMsg)] else []) ++
  (if moistureFires af e then [(2, moistureMsg)] else []) ++
  (if esterFires af e then [(2, esterMsg)] else []) ++
  (if acidBaseFires af e then [(2, acidBaseMsg)] else []) ++
  (if ssgFires af e then [(1, ssgMsg)] else []) ++
  (if mgstFires af e pct then [(2, mgstMsg)] else [])

/-- `np.clip` on rationals: lower bound first, then upper bound. -/
def clipQ (lo hi x : ℚ) : ℚ := minQ hi (maxQ lo x)

/-- `Simulators.disintegration_time`: a multiplicative shrink/grow model
clipped to [1, 60] minutes (0.25 = 1/4, 0.5 = 1/2, 0.02 = 1/50). -/
def disintegration_time (dis_pct lub_pct mcc_pct : ℚ) : ℚ :=
  let base : ℚ := 15
  let t := base * (1 / (1 + (1 / 4) * dis_pct)) * (1 + (1 / 2) * maxQ 0 (lub_pct - 1 / 2))
    * (1 / (1 + (1 / 50) * mcc_pct))
  clipQ 1 60 t

/-- `np.linspace(0, T, T + 1)`: the T+1 evenly spaced sample times
0, 1, ..., T (step (T-0)/T = 1; for T = 0 the single point 0). -/
noncomputable def linspace (T : ℕ) : List ℝ :=
  (List.range (T + 1)).map (fun i : ℕ => (i : ℝ))

/-- The unclipped Weibull value `1 - exp(-(t / clip(Td, 1e-6, None)) ** beta)`. -/
noncomputable def weibullF (beta Td t : ℝ) : ℝ :=
  1 - Real.exp (-(t / max Td (1 / 1000000)) ^ beta)

/-- `Simulators.dissolution_weibull`: the sampled times and the Weibull
fractions clipped to [0, 1]. -/
noncomputable def dissolution_weibull (T : ℕ) (beta Td : ℝ) : List ℝ × List ℝ :=
  (linspace T, (linspace T).map (fun t => min 1 (max 0 (weibullF beta Td t))))

/-- Flags with only `chelation` set. -/
def chelFlags : ApiFlags :=
  ⟨false, false, false, false, false, false, false, false, false, true⟩

/-- Magnesium stearate at 0.5 percent. -/
def mgComponent : Component := ⟨"Magnesium stearate", "Lubricant", 1 / 2⟩

/-- A formulation whose single component carries a negative weight percent. -/
def negWeightForm : Formulation :=
  ⟨"Model API", "ir_tablet", 200, [⟨"Magnesium stearate", "Lubricant", -5⟩], "", noFlags⟩

/-- A formulation whose components sum to exactly 100 percent. -/
def balancedForm : Formulation :=
  ⟨"Model API", "ir_tablet", 200, [⟨"Microcrystalline cellulose (MCC)", "Diluent", 100⟩], "", noFlags⟩

lemma exByName_mgst :
    exByName "Magnesium stearate"
      = some ⟨"Magnesium stearate", "Lubricant", 1 / 5, 1,
          ⟨false, false, true, true, true, false, false⟩,
          "Hydrophobic; basic; slows dissolution if high."⟩ := rfl

lemma exByName_mcc :
    exByName "Microcrystalline cellulose (MCC)"
      = some ⟨"Microcrystalline cellulose (MCC)", "Diluent", 10, 60,
          ⟨false, false, false, false, false, false, false⟩,
          "Compressibility; wicking."⟩ := rfl

lemma maxQ_eq (a b : ℚ) : maxQ a b = max a b := by
  simp [maxQ, max_def]

lemma minQ_eq (a b : ℚ) : minQ a b = min a b := by
  simp [minQ, min_def]

lemma absQ_eq (a : ℚ) : absQ a = |a| := by
  rcases lt_or_le a 0 with h | h
  · simp [absQ, h, abs_of_neg h]
  · simp [absQ, not_lt.2 h, abs_of_nonneg h]

lemma compatibility_matrix_cons (af : ApiFlags) (c : Component) (cs : List Component) :
    compatibility_matrix af (c :: cs) =
      (match exByName c.name with
        | none => []
        | some e => [rowFor af c e]) ++ compatibility_matrix af cs := by
  simp [compatibility_matrix]

lemma rowFor_excipient (af : ApiFlags) (c : Component) (e : Excipient) :
    (rowFor af c e).excipient = c.name := rfl

lemma rowFor_function (af : ApiFlags) (c : Component) (e : Excipient) :
    (rowFor af c e).function = c.function := rfl

lemma rowFor_pct (af : ApiFlags) (c : Component) (e : Excipient) :
    (rowFor af c e).pct = c.pct := rfl

/-- Claim C1, counterexample: a component whose name has no catalog match
yields no row at all — `compatibility_matrix` returns the empty list for
a single unknown component instead of a risk-0 "no data" row. -/
theorem c1_counterexample :
    compatibility_matrix noFlags [⟨"Unobtainium", "Diluent", 1⟩] = [] := by decide

/-- Claim C1, amended: `compatibility_matrix` returns one row per input
component whose name resolves in the catalog, in input order, carrying
that component's name, function and weight percent; components that do
not resolve are silently skipped (no row, no exception). -/
theorem c1_one_row_per_resolvable_component (af : ApiFlags) (cs : List Component) :
    (compatibility_matrix af cs).map (fun r => (r.excipient, r.function, r.pct))
      = (cs.filter (fun c => (exByName c.name).isSome)).map
          (fun c => (c.name, c.function, c.pct)) := by
  induction cs with
  | nil => rfl
  | cons c cs ih =>
    cases h : exByName c.name with
    | none => simp [compatibility_matrix_cons, h, List.filter_cons, ih]
    | some e =>
      simp [compatibility_matrix_cons, h, List.filter_cons, ih,
        rowFor_excipient, rowFor_function, rowFor_pct]

/-- Claim C2, counterexample: for disintegrant 3 percent, lubricant 0.5
percent, the code's disintegration model does not return 9.0 minutes. -/
theorem c2_counterexample : disintegration_time 3 (1 / 2) 0 ≠ 9 := by
  norm_num [disintegration_time, clipQ, maxQ, minQ]

/-- Claim C2, amended: `disintegration_time` takes (disintegrant pct,
lubricant pct, MCC pct) with no flags input and computes
15 · 1/(1+0.25·dis) · (1+0.5·max(0,lub−0.5)) · 1/(1+0.02·mcc) clipped to
[1, 60]; at disintegrant 3, lubricant 0.5, MCC 0 it returns exactly
60/7 ≈ 8.57 minutes. -/
theorem c2_disintegration_scenario : disintegration_time 3 (1 / 2) 0 = 60 / 7 := by
  norm_num [disintegration_time, clipQ, maxQ, minQ]

/-- Claim C4, counterexample: with only the chelation flag set, the row
for Magnesium stearate at 0.5 percent does not have risk 3 — no rule in
`compatibility_matrix` reads the chelation flag. -/
theorem c4_counterexample :
    ¬ ∃ r ∈ compatibility_matrix chelFlags [mgComponent], r.risk = 3 := by decide

/-- Claim C4, amended: with only the chelation flag set, Magnesium
stearate at 0.5 percent gets risk 0 with the default no-specific-risk
reason: the engine's rule table contains no chelation rule. -/
theorem c4_chelation_scenario :
    compatibility_matrix chelFlags [mgComponent]
      = [⟨"Magnesium stearate", "Lubricant", 1 / 2, 0, [noRiskMsg]⟩] := rfl

/-- Claim C5, counterexample: a formulation whose single component has
weight −5 percent produces only the mass-balance warning and the
missing-function warnings; no message flags the component's weight (no
range message for it and no Magnesium-stearate dose message). -/
theorem c5_counterexample :
    validate negWeightForm
        = [VMsg.balWarn (-5), VMsg.noDisintegrant, VMsg.noLubricant, VMsg.noGlidant]
      ∧ VMsg.belowRange "Magnesium stearate" (-5) ∉ validate negWeightForm
      ∧ VMsg.aboveRange "Magnesium stearate" (-5) ∉ validate negWeightForm
      ∧ VMsg.mgStearateHigh ∉ validate negWeightForm := by
  norm_num [validate, negWeightForm, total_pct, massBalanceMsg, absQ, designMsgs,
    componentMsgs, exByName_mgst, noFlags, List.filter]
  decide

/-- Claim C9: serializing a component table through `Component.to_dict`
and reading each flat record back reconstructs the identical component
sequence — the round trip is the identity on every list of components. -/
theorem c9_roundtrip_identity (cs : List Component) :
    (cs.map Component.to_dict).map componentOfRow = cs := by
  induction cs with
  | nil => rfl
  | cons c cs ih =>
    simp only [List.map_cons, ih]
    rfl

lemma massBalanceMsg_cases (t : ℚ) :
    massBalanceMsg t = .balOk t ∨ massBalanceMsg t = .balErr t ∨ massBalanceMsg t = .balWarn t := by
  unfold massBalanceMsg
  split
  · exact Or.inl rfl
  split
  · exact Or.inr (Or.inl rfl)
  · exact Or.inr (Or.inr rfl)

lemma eq_of_mem_ite_single {α : Type} {p : Prop} [Decidable p] {x m : α}
    (hm : m ∈ (if p then [x] else ([] : List α))) : m = x := by
  by_cases h : p
  · rw [if_pos h] at hm
    simpa using hm
  · rw [if_neg h] at hm
    simp at hm

lemma eq_of_mem_ite_single_else {α : Type} {p : Prop} [Decidable p] {x m : α}
    (hm : m ∈ (if p then ([] : List α) else [x])) : m = x := by
  by_cases h : p
  · rw [if_pos h] at hm
    simp at hm
  · rw [if_neg h] at hm
    simpa using hm

lemma designMsgs_cases (f : Formulation) (m : VMsg) (hm : m ∈ designMsgs f) :
    m = .noDisintegrant ∨ m = .noLubricant ∨ m = .noGlidant := by
  by_cases hd : f.dosage_form = "ir_tablet"
  · simp only [designMsgs, if_pos hd, List.mem_append] at hm
    rcases hm with (hm | hm) | hm
    · exact Or.inl (eq_of_mem_ite_single_else hm)
    · exact Or.inr (Or.inl (eq_of_mem_ite_single_else hm))
    · exact Or.inr (Or.inr (eq_of_mem_ite_single_else hm))
  · simp only [designMsgs, if_neg hd] at hm
    simp at hm

lemma componentMsgs_cases (a : Bool) (c : Component) (m : VMsg) (hm : m ∈ componentMsgs a c) :
    m = .belowRange c.name c.pct ∨ m = .aboveRange c.name c.pct
      ∨ m = .maillardWarn c.name ∨ m = .mgStearateHigh := by
  unfold componentMsgs at hm
  cases hx : exByName c.name <;> rw [hx] at hm
  · simp at hm
  · simp only [List.mem_append] at hm
    rcases hm with (hm | hm) | hm
    · by_cases hp : 0 < c.pct
      · rw [if_pos hp] at hm
        simp only [List.mem_append] at hm
        rcases hm with hm | hm
        · exact Or.inl (eq_of_mem_ite_single hm)
        · exact Or.inr (Or.inl (eq_of_mem_ite_single hm))
      · rw [if_neg hp] at hm
        simp at hm
    · exact Or.inr (Or.inr (Or.inl (eq_of_mem_ite_single hm)))
    · exact Or.inr (Or.inr (Or.inr (eq_of_mem_ite_single hm)))

lemma componentMsgs_nonpos (a : Bool) (c : Component) (hc : c.pct ≤ 0) (m : VMsg)
    (hm : m ∈ componentMsgs a c) : m = .maillardWarn c.name := by
  unfold componentMsgs at hm
  cases hx : exByName c.name <;> rw [hx] at hm
  · simp at hm
  · have h1 : ¬ (0 < c.pct) := not_lt.2 hc
    have h2 : (decide (1 < c.pct)) = false := decide_eq_false (by linarith)
    simp only [List.mem_append] at hm
    rcases hm with (hm | hm) | hm
    · rw [if_neg h1] at hm
      simp at hm
    · exact eq_of_mem_ite_single hm
    · simp only [h2, Bool.and_false] at hm
      simp at hm

/-- Claim C5, amended: for a formulation whose single component has a
negative weight percent, `validate` emits no message flagging that
component's weight — no below/above-range message for it and no
Magnesium-stearate dose message; the range check is skipped entirely for
non-positive weights, so a negative weight is silently accepted. -/
theorem c5_negative_weight_not_flagged (f : Formulation) (c : Component)
    (hcomp : f.components = [c]) (hneg : c.pct < 0) :
    ∀ m ∈ validate f,
      (∀ q : ℚ, m ≠ VMsg.belowRange c.name q ∧ m ≠ VMsg.aboveRange c.name q)
        ∧ m ≠ VMsg.mgStearateHigh := by
  intro m hm
  simp only [validate, hcomp, List.mem_cons, List.mem_append, List.mem_flatMap] at hm
  rcases hm with hm | hm | hm
  · rcases massBalanceMsg_cases (total_pct f) with h | h | h <;> rw [h] at hm <;>
      subst hm <;> simp
  · rcases designMsgs_cases f m hm with h | h | h <;> subst h <;> simp
  · obtain ⟨c1, hc1, hmem⟩ := hm
    have hc1' : c1 = c := by simpa using hc1
    rw [hc1'] at hmem
    have hmw := componentMsgs_nonpos f.flags.amine c (le_of_lt hneg) m hmem
    subst hmw
    simp

/-- Claim C5, witness for the amended theorem at the concrete
negative-weight formulation. -/
theorem c5_negative_weight_witness :
    (VMsg.balWarn (-5) ≠ VMsg.belowRange "Magnesium stearate" 0
      ∧ VMsg.balWarn (-5) ≠ VMsg.aboveRange "Magnesium stearate" 0)
    ∧ VMsg.balWarn (-5) ≠ VMsg.mgStearateHigh := by
  have h := c5_negative_weight_not_flagged negWeightForm
    ⟨"Magnesium stearate", "Lubricant", -5⟩ rfl (by norm_num) (VMsg.balWarn (-5))
    (by norm_num [validate, negWeightForm, total_pct, massBalanceMsg, absQ, designMsgs,
      componentMsgs, exByName_mgst, noFlags, List.filter])
  exact ⟨h.1 0, h.2⟩

/-- Claim C6: a component's risk score is the maximum risk level over
the rules that fire for it (not the sum), and its reasons are exactly
the explanations of the firing rules in declaration order (or the single
default reason when none fires) — so a component firing a level-3 and a
level-2 rule reports risk 3 with both explanations present. -/
theorem c6_risk_is_max_not_sum (af : ApiFlags) (c : Component) (e : Excipient) :
    (rowFor af c e).risk = ((firingRules af e c.pct).map Prod.fst).foldr max 0
      ∧ (rowFor af c e).reasons
        = (if firingRules af e c.pct = [] then [noRiskMsg]
            else (firingRules af e c.pct).map Prod.snd) := by
  cases h1 : maillardFires af e <;> cases h2 : moistureFires af e <;>
    cases h3 : esterFires af e <;> cases h4 : acidBaseFires af e <;>
      cases h5 : ssgFires af e <;> cases h6 : mgstFires af e c.pct <;>
        simp [rowFor, firingRules, h1, h2, h3, h4, h5, h6]

/-- Claim C7: the first message of `validate` is the mass-balance
result: ok when the total is within 1e-6 of 100, else err when the total
exceeds 100, else warn; and for a total within tolerance the ok message
is emitted and no mass-balance warning or error appears anywhere in the
output. -/
theorem c7_mass_balance_first (f : Formulation) :
    (|total_pct f - 100| < 1 / 1000000 →
        (validate f).head? = some (VMsg.balOk (total_pct f))
        ∧ ∀ q : ℚ, VMsg.balWarn q ∉ validate f ∧ VMsg.balErr q ∉ validate f)
    ∧ (¬ |total_pct f - 100| < 1 / 1000000 → 100 < total_pct f →
        (validate f).head? = some (VMsg.balErr (total_pct f)))
    ∧ (¬ |total_pct f - 100| < 1 / 1000000 → ¬ 100 < total_pct f →
        (validate f).head? = some (VMsg.balWarn (total_pct f))) := by
  have hok : |total_pct f - 100| < 1 / 1000000 →
      massBalanceMsg (total_pct f) = VMsg.balOk (total_pct f) := by
    intro h
    unfold massBalanceMsg
    rw [absQ_eq, if_pos h]
  refine ⟨fun h => ⟨?_, ?_⟩, fun h1 h2 => ?_, fun h1 h2 => ?_⟩
  · simp [validate, hok h]
  · intro q
    constructor <;> intro hm <;>
      simp only [validate, List.mem_cons, List.mem_append, List.mem_flatMap] at hm <;>
      rcases hm with hm | hm | hm
    · rw [hok h] at hm
      exact VMsg.noConfusion hm
    · rcases designMsgs_cases f _ hm with h | h | h <;> exact VMsg.noConfusion h
    · obtain ⟨c1, _, hmem⟩ := hm
      rcases componentMsgs_cases f.flags.amine c1 _ hmem with h | h | h | h <;>
        exact VMsg.noConfusion h
    · rw [hok h] at hm
      exact VMsg.noConfusion hm
    · rcases designMsgs_cases f _ hm with h | h | h <;> exact VMsg.noConfusion h
    · obtain ⟨c1, _, hmem⟩ := hm
      rcases componentMsgs_cases f.flags.amine c1 _ hmem with h | h | h | h <;>
        exact VMsg.noConfusion h
  · have hmsg : massBalanceMsg (total_pct f) = VMsg.balErr (total_pct f) := by
      unfold massBalanceMsg
      rw [absQ_eq, if_neg h1, if_pos h2]
    simp [validate, hmsg]
  · have hmsg : massBalanceMsg (total_pct f) = VMsg.balWarn (total_pct f) := by
      unfold massBalanceMsg
      rw [absQ_eq, if_neg h1, if_neg h2]
    simp [validate, hmsg]

/-- Claim C7, witness at a formulation summing to exactly 100. -/
theorem c7_mass_balance_witness :
    (validate balancedForm).head? = some (VMsg.balOk (total_pct balancedForm))
      ∧ VMsg.balWarn 0 ∉ validate balancedForm ∧ VMsg.balErr 0 ∉ validate balancedForm := by
  have htol : |total_pct balancedForm - 100| < 1 / 1000000 := by
    norm_num [total_pct, balancedForm]
  have h := (c7_mass_balance_first balancedForm).1 htol
  exact ⟨h.1, h.2 0⟩

lemma clipQ_le_clipQ (lo hi x y : ℚ) (h : x ≤ y) : clipQ lo hi x ≤ clipQ lo hi y := by
  simp only [clipQ, maxQ_eq, minQ_eq]
  exact min_le_min le_rfl (max_le_max le_rfl h)

/-- Claim C8, counterexample: at disintegrant 60 percent the model
returns 1.0 minute, outside the claimed range [2.0, 30.0] — the code
clips to [1, 60], not [2, 30]. -/
theorem c8_counterexample : disintegration_time 60 0 0 < 2 := by
  norm_num [disintegration_time, clipQ, maxQ, minQ]

/-- Claim C8, amended: for non-negative inputs `disintegration_time` is
monotonically non-increasing in the disintegrant percent and
non-decreasing in the lubricant percent (at any fixed MCC percent), and
its result always lies within [1.0, 60.0] minutes (the code's actual
clip bounds, not [2.0, 30.0]). -/
theorem c8_monotone_within_bounds :
    (∀ d1 d2 l m : ℚ, 0 ≤ d1 → d1 ≤ d2 → 0 ≤ l → 0 ≤ m →
        disintegration_time d2 l m ≤ disintegration_time d1 l m)
    ∧ (∀ d l1 l2 m : ℚ, 0 ≤ d → 0 ≤ l1 → l1 ≤ l2 → 0 ≤ m →
        disintegration_time d l1 m ≤ disintegration_time d l2 m)
    ∧ (∀ d l m : ℚ, 1 ≤ disintegration_time d l m ∧ disintegration_time d l m ≤ 60) := by
  refine ⟨fun d1 d2 l m hd1 hd hl hm => ?_, fun d l1 l2 m hd hl1 hl hm => ?_,
    fun d l m => ⟨?_, ?_⟩⟩
  · simp only [disintegration_time]
    apply clipQ_le_clipQ
    have hA : 1 / (1 + 1 / 4 * d2) ≤ 1 / (1 + 1 / 4 * d1) := by
      apply one_div_le_one_div_of_le <;> linarith
    have hB : (0 : ℚ) ≤ 1 + 1 / 2 * maxQ 0 (l - 1 / 2) := by
      rw [maxQ_eq]
      have := le_max_left (0 : ℚ) (l - 1 / 2)
      linarith
    have hC : (0 : ℚ) ≤ 1 / (1 + 1 / 50 * m) := one_div_nonneg.2 (by linarith)
    have h15 : 15 * (1 / (1 + 1 / 4 * d2)) ≤ 15 * (1 / (1 + 1 / 4 * d1)) := by linarith
    exact mul_le_mul_of_nonneg_right (mul_le_mul_of_nonneg_right h15 hB) hC
  · simp only [disintegration_time]
    apply clipQ_le_clipQ
    have hA : (0 : ℚ) ≤ 15 * (1 / (1 + 1 / 4 * d)) :=
      mul_nonneg (by norm_num) (one_div_nonneg.2 (by linarith))
    have hB : 1 + 1 / 2 * maxQ 0 (l1 - 1 / 2) ≤ 1 + 1 / 2 * maxQ 0 (l2 - 1 / 2) := by
      rw [maxQ_eq, maxQ_eq]
      have := max_le_max (le_refl (0 : ℚ)) (by linarith : l1 - 1 / 2 ≤ l2 - 1 / 2)
      linarith
    have hC : (0 : ℚ) ≤ 1 / (1 + 1 / 50 * m) := one_div_nonneg.2 (by linarith)
    exact mul_le_mul_of_nonneg_right (mul_le_mul_of_nonneg_left hB hA) hC
  · simp only [disintegration_time, clipQ, maxQ_eq, minQ_eq]
    exact le_min (by norm_num) (le_max_left 1 _)
  · simp only [disintegration_time, clipQ, maxQ_eq, minQ_eq]
    exact min_le_left 60 _

lemma weibullTc_pos (Td : ℝ) : (0 : ℝ) < max Td (1 / 1000000) :=
  lt_max_of_lt_right (by norm_num)

lemma weibullF_zero (beta Td : ℝ) (hb : beta ≠ 0) : weibullF beta Td 0 = 0 := by
  simp [weibullF, Real.zero_rpow hb]

lemma weibullF_mono (beta Td : ℝ) (hb : 0 ≤ beta) {t1 t2 : ℝ} (h1 : 0 ≤ t1)
    (h12 : t1 ≤ t2) : weibullF beta Td t1 ≤ weibullF beta Td t2 := by
  have hTc := weibullTc_pos Td
  unfold weibullF
  have hdiv : t1 / max Td (1 / 1000000) ≤ t2 / max Td (1 / 1000000) :=
    (div_le_div_iff_of_pos_right hTc).2 h12
  have hrpow := Real.rpow_le_rpow (div_nonneg h1 hTc.le) hdiv hb
  have hexp := Real.exp_le_exp.2 (neg_le_neg hrpow)
  linarith

lemma linspace_length (T : ℕ) : (linspace T).length = T + 1 := by
  rw [linspace, List.length_map, List.length_range]

lemma dissolution_weibull_fst (T : ℕ) (beta Td : ℝ) :
    (dissolution_weibull T beta Td).1 = linspace T := rfl

lemma dissolution_weibull_snd (T : ℕ) (beta Td : ℝ) :
    (dissolution_weibull T beta Td).2
      = (List.range (T + 1)).map
          (fun i : ℕ => min 1 (max 0 (weibullF beta Td (i : ℝ)))) := by
  rw [show (dissolution_weibull T beta Td).2
      = (linspace T).map (fun t => min 1 (max 0 (weibullF beta Td t))) from rfl,
    linspace, List.map_map]
  rfl

/-- Claim C3, counterexample: at the default call (T = 60) the sampled
time grid has 61 points, not 13. -/
theorem c3_counterexample : (dissolution_weibull 60 1.6 12).1.length ≠ 13 := by
  rw [dissolution_weibull_fst, linspace_length]
  norm_num

/-- Claim C3, amended: `dissolution_weibull` samples T + 1 evenly spaced
time points over [0, T] (61 at the default T = 60); the shape exponent
is an explicit parameter rather than being derived from flags; the
characteristic time is clamped below by the positive epsilon 1e-6 before
the division; and every output fraction is clipped to [0, 1] (a 0-to-1
fraction, not a percent), so the output contains no negative value for
any Td, including Td ≤ 0. -/
theorem c3_sampling_and_clipping (T : ℕ) (beta Td : ℝ) :
    (dissolution_weibull T beta Td).1.length = T + 1
    ∧ (dissolution_weibull T beta Td).2.length = T + 1
    ∧ (0 : ℝ) < max Td (1 / 1000000)
    ∧ ∀ y ∈ (dissolution_weibull T beta Td).2, 0 ≤ y ∧ y ≤ 1 := by
  refine ⟨by rw [dissolution_weibull_fst, linspace_length],
    by rw [dissolution_weibull_snd, List.length_map, List.length_range],
    weibullTc_pos Td, ?_⟩
  intro y hy
  rw [dissolution_weibull_snd] at hy
  obtain ⟨i, _, rfl⟩ := List.mem_map.1 hy
  exact ⟨le_min zero_le_one (le_max_left 0 _), min_le_left 1 _⟩

/-- Claim C10: for every characteristic time Td (zero and negative
included) and the default shape 1.6, the fraction sequence of
`dissolution_weibull` lies within [0, 1], starts at exactly 0, and is
non-decreasing across the sampled time points. -/
theorem c10_dissolution_invariants (Td : ℝ) :
    (∀ y ∈ (dissolution_weibull 60 1.6 Td).2, 0 ≤ y ∧ y ≤ 1)
    ∧ (dissolution_weibull 60 1.6 Td).2.head? = some 0
    ∧ List.Pairwise (· ≤ ·) (dissolution_weibull 60 1.6 Td).2 := by
  refine ⟨?_, ?_, ?_⟩
  · intro y hy
    rw [dissolution_weibull_snd] at hy
    obtain ⟨i, _, rfl⟩ := List.mem_map.1 hy
    exact ⟨le_min zero_le_one (le_max_left 0 _), min_le_left 1 _⟩
  · rw [dissolution_weibull_snd, List.range_succ_eq_map]
    simp only [List.map_cons, List.head?_cons, Nat.cast_zero]
    rw [weibullF_zero 1.6 Td (by norm_num), max_self, min_eq_right zero_le_one]
  · rw [dissolution_weibull_snd]
    refine List.Pairwise.map _ ?_ (List.pairwise_lt_range (60 + 1))
    intro a b hab
    refine min_le_min le_rfl (max_le_max le_rfl ?_)
    exact weibullF_mono 1.6 Td (by norm_num) (Nat.cast_nonneg a)
      (Nat.cast_le.2 (le_of_lt hab))

/-- Claim C8, witness for the amended theorem at concrete inputs. -/
theorem c8_monotone_witness :
    disintegration_time 2 0 0 ≤ disintegration_time 1 0 0
    ∧ disintegration_time 1 0 0 ≤ disintegration_time 1 1 0
    ∧ (1 ≤ disintegration_time 3 (1 / 2) 0 ∧ disintegration_time 3 (1 / 2) 0 ≤ 60) :=
  ⟨c8_monotone_within_bounds.1 1 2 0 0 (by norm_num) (by norm_num) le_rfl le_rfl,
    c8_monotone_within_bounds.2.1 1 0 1 0 (by norm_num) le_rfl (by norm_num) le_rfl,
    c8_monotone_within_bounds.2.2 3 (1 / 2) 0⟩

end ExcipientAI
